import Mathlib

/-!
Shallow embedding of the crocoddyl core under `src/`:

* `src/include/crocoddyl/core/actions/lqr.hxx` — the linear-quadratic
  stage model `ActionModelLQRTpl` (`calc`, terminal `calc`, `calcDiff`,
  `set_LQR`, the `(nx, nu, drift_free)` constructor);
* `src/include/crocoddyl/core/controls/poly-two-rk4.hxx` — the quadratic
  collocation control parametrization
  `ControlParametrizationModelPolyTwoRK4Tpl` (`calc`, `calcDiff`,
  `params`, `multiplyByJacobian`, `multiplyJacobianTransposeBy`).

The dynamically sized dense matrices of Eigen are embedded as a pair of extents
together with an entry function; two matrices are observationally equal
(`mEq`) when their extents agree and their entries agree inside the
extents, mirroring the value semantics of Eigen.  Scalars are embedded as exact
rationals: the C++ code is templated over the scalar type and performs
only field operations and order comparisons, so `ℚ` is a faithful
exact-arithmetic instance of the template.
-/

namespace Croc

/-- A dynamically sized dense vector: an extent `n` and an entry function.
Entries at indices `≥ n` are irrelevant (compare `vEq`). -/
structure Vec where
  n : ℕ
  f : ℕ → ℚ

/-- A dynamically sized dense matrix: row and column extents and an entry
function.  Entries outside the extents are irrelevant (compare `mEq`). -/
structure Mat where
  r : ℕ
  c : ℕ
  f : ℕ → ℕ → ℚ

/-- Observational equality of vectors: same extent, same entries below it. -/
def vEq (a b : Vec) : Prop :=
  a.n = b.n ∧ ∀ i, i < a.n → a.f i = b.f i

instance (a b : Vec) : Decidable (vEq a b) :=
  decidable_of_iff (a.n = b.n ∧ ∀ i, i < a.n → a.f i = b.f i) Iff.rfl

/-- Observational equality of matrices: same extents, same entries inside. -/
def mEq (a b : Mat) : Prop :=
  a.r = b.r ∧ a.c = b.c ∧ ∀ i, i < a.r → ∀ j, j < a.c → a.f i j = b.f i j

instance (a b : Mat) : Decidable (mEq a b) :=
  decidable_of_iff
    (a.r = b.r ∧ a.c = b.c ∧ ∀ i, i < a.r → ∀ j, j < a.c → a.f i j = b.f i j)
    Iff.rfl

/-- Sum of the first `n` values of `g` (the inner loop of the dense Eigen
products and dot products). -/
def sumTo : ℕ → (ℕ → ℚ) → ℚ
  | 0, _ => 0
  | n + 1, g => sumTo n g + g n

/-- Eigen dot product `a.dot(b)` over the extent of `a`. -/
def dot (a b : Vec) : ℚ :=
  sumTo a.n fun i => a.f i * b.f i

/-- Matrix–vector product `A * x`. -/
def matVec (A : Mat) (x : Vec) : Vec :=
  ⟨A.r, fun i => sumTo A.c fun j => A.f i j * x.f j⟩

/-- Componentwise vector sum. -/
def vAdd (a b : Vec) : Vec :=
  ⟨a.n, fun i => a.f i + b.f i⟩

/-- Matrix transpose. -/
def mT (A : Mat) : Mat :=
  ⟨A.c, A.r, fun i j => A.f j i⟩

/-- The all-zero vector of extent `n`. -/
def zeroVec (n : ℕ) : Vec :=
  ⟨n, fun _ => 0⟩

/-- The all-one vector of extent `n` (Eigen `VectorXs::Ones`). -/
def onesVec (n : ℕ) : Vec :=
  ⟨n, fun _ => 1⟩

/-- The all-zero matrix of extents `r × c`. -/
def zeroMat (r c : ℕ) : Mat :=
  ⟨r, c, fun _ _ => 0⟩

/-- Eigen `MatrixXs::Identity(r, c)`: ones on the main diagonal. -/
def idMat (r c : ℕ) : Mat :=
  ⟨r, c, fun i j => if i = j then 1 else 0⟩

/-- Whether an `Except` value is a success. -/
def exOk {α : Type} (e : Except String α) : Bool :=
  match e with
  | Except.ok _ => true
  | Except.error _ => false

/-- The success payload of an `Except` value, or a default. -/
def exGetD {α : Type} (e : Except String α) (d : α) : α :=
  match e with
  | Except.ok a => a
  | Except.error _ => d

end Croc

namespace Croc

/-!
Quadratic collocation (RK4) control parametrization,
`poly-two-rk4.hxx`.  The model carries only the instantaneous control
size `nw`; the parameter size is `nu = 3 * nw` (constructor, line 12).
-/

/-- `ControlParametrizationModelPolyTwoRK4Tpl`: the model state is the
dimension `nw`; `nu_` is `3 * nw` by construction. -/
structure PolyTwoRK4 where
  nw : ℕ

/-- The parameter dimension `nu_ = 3 * nw_` set by the constructor. -/
def PolyTwoRK4.nu (m : PolyTwoRK4) : ℕ := 3 * m.nw

/-- `ControlParametrizationDataAbstract` as used by `poly-two-rk4.hxx`:
instantaneous control `w`, Jacobian buffer `dw_du`, the cached basis
coefficients `c[0..2]`, the scratch `tmp_t2`, and the parameter buffer
`u` written by `params`. -/
structure CData where
  w : Vec
  dw_du : Mat
  c0 : ℚ
  c1 : ℚ
  c2 : ℚ
  tmp_t2 : ℚ
  u : Vec

/-- Basis coefficient `c[2] = 2 t² − t` (calc, line 31; `tmp_t2 = t * t`). -/
def c2fun (t : ℚ) : ℚ := 2 * (t * t) - t

/-- Basis coefficient `c[1] = −2 c[2] + 2 t` (calc, line 32). -/
def c1fun (t : ℚ) : ℚ := -2 * c2fun t + 2 * t

/-- Basis coefficient `c[0] = c[2] − 2 t + 1` (calc, line 33). -/
def c0fun (t : ℚ) : ℚ := c2fun t - 2 * t + 1

/-- The control value `w = c2·p2 + c1·p1 + c0·p0` written by `calc`
(poly-two-rk4.hxx line 34), with `p0 = u.head(nw)`,
`p1 = u.segment(nw, nw)`, `p2 = u.tail(nw)`. -/
def calcW (nw : ℕ) (t : ℚ) (u : Vec) : Vec :=
  ⟨nw, fun i =>
    c2fun t * u.f (2 * nw + i) + c1fun t * u.f (nw + i) + c0fun t * u.f i⟩

/-- `calc(data, t, u)` (poly-two-rk4.hxx lines 18–35): checks
`u.size() == nu_`, caches `tmp_t2` and `c[0..2]`, and writes
`w = c2·p2 + c1·p1 + c0·p0`. -/
def rk4Calc (m : PolyTwoRK4) (d : CData) (t : ℚ) (u : Vec) :
    Except String CData :=
  if u.n ≠ m.nu then
    Except.error "Invalid argument: u has wrong dimension"
  else
    Except.ok
      { d with
        tmp_t2 := t * t
        c2 := c2fun t
        c1 := c1fun t
        c0 := c0fun t
        w := calcW m.nw t u }

/-- The entry update performed by `calcDiff` (poly-two-rk4.hxx lines
42–44): the diagonals of the three column blocks of `dw_du` are assigned
`c0`, `c1`, `c2`; every other entry keeps its previous value. -/
def writeBlockDiag (nw : ℕ) (M : Mat) (a0 a1 a2 : ℚ) : Mat :=
  ⟨M.r, M.c, fun i j =>
    if j = i then a0
    else if j = nw + i then a1
    else if j = 2 * nw + i then a2
    else M.f i j⟩

/-- `calcDiff` with the basis coefficients passed explicitly; `calcDiff`
itself reads them from the data (`d->c[0..2]`). -/
def rk4CalcDiffAux (nw : ℕ) (a0 a1 a2 : ℚ) (d : CData) : CData :=
  { d with dw_du := writeBlockDiag nw d.dw_du a0 a1 a2 }

/-- `calcDiff(data, t, u)` (poly-two-rk4.hxx lines 37–45): both the time
and the control argument are anonymous in the source and unused; the
coefficients stored in the data by the last `calc` are written onto the
block diagonals of `dw_du`.  No dimension check is performed. -/
def rk4CalcDiff (m : PolyTwoRK4) (d : CData) (_t : ℚ) (_u : Vec) : CData :=
  rk4CalcDiffAux m.nw d.c0 d.c1 d.c2 d

/-- The parameter vector produced by `params` (poly-two-rk4.hxx lines
61–63): `w` replicated into the head, middle and tail third of the `u`
buffer of extent `nu = 3·nw`. -/
def paramsVec (nw : ℕ) (w : Vec) : Vec :=
  ⟨3 * nw, fun i =>
    if i < nw then w.f i
    else if i < 2 * nw then w.f (i - nw)
    else w.f (i - 2 * nw)⟩

/-- `params(data, t, w)` (poly-two-rk4.hxx lines 53–64): checks
`w.size() == nw_` and writes `w` into each third of `data->u`. -/
def rk4Params (m : PolyTwoRK4) (d : CData) (_t : ℚ) (w : Vec) :
    Except String CData :=
  if w.n ≠ m.nw then
    Except.error "Invalid argument: w has wrong dimension"
  else
    Except.ok { d with u := paramsVec m.nw w }

/-- The block row `[a0·A | a1·A | a2·A]` written by `multiplyByJacobian`
into the three column thirds of `out`. -/
def mbjBlock (nw : ℕ) (a0 a1 a2 : ℚ) (A : Mat) (i j : ℕ) : ℚ :=
  if j < nw then a0 * A.f i j
  else if j < 2 * nw then a1 * A.f i (j - nw)
  else a2 * A.f i (j - 2 * nw)

/-- The block column written by `multiplyJacobianTransposeBy` into the
three row thirds of `out`. -/
def mjtbBlock (nw : ℕ) (a0 a1 a2 : ℚ) (A : Mat) (i j : ℕ) : ℚ :=
  if i < nw then a0 * A.f i j
  else if i < 2 * nw then a1 * A.f (i - nw) j
  else a2 * A.f (i - 2 * nw) j

/-- `multiplyByJacobian` with the coefficients passed explicitly; the
method itself reads them from the data.  The accumulation mode is the
underlying value of the C++ `AssignmentOp` enum: `0 = setto`,
`1 = addto`, `2 = rmfrom`; the shape check (lines 100–105) precedes the
`switch`, whose `default` branch throws (lines 123–125). -/
def rk4MbjAux (nw : ℕ) (a0 a1 a2 : ℚ) (A out : Mat) (op : ℕ) :
    Except String Mat :=
  if A.r ≠ out.r ∨ A.c ≠ nw ∨ out.c ≠ 3 * nw then
    Except.error "Invalid argument: A and out have wrong dimensions"
  else if op = 0 then
    Except.ok ⟨out.r, out.c, mbjBlock nw a0 a1 a2 A⟩
  else if op = 1 then
    Except.ok ⟨out.r, out.c, fun i j => out.f i j + mbjBlock nw a0 a1 a2 A i j⟩
  else if op = 2 then
    Except.ok ⟨out.r, out.c, fun i j => out.f i j - mbjBlock nw a0 a1 a2 A i j⟩
  else
    Except.error "Invalid argument: allowed operators: setto, addto, rmfrom"

/-- `multiplyByJacobian(data, A, out, op)` (poly-two-rk4.hxx lines
95–127): writes `A` scaled by `c0, c1, c2` into the three column thirds
of `out` under the accumulation mode. -/
def rk4MultiplyByJacobian (m : PolyTwoRK4) (d : CData) (A out : Mat)
    (op : ℕ) : Except String Mat :=
  rk4MbjAux m.nw d.c0 d.c1 d.c2 A out op

/-- `multiplyJacobianTransposeBy` with the coefficients passed
explicitly (shape check: lines 134–139; `switch` default: lines
157–159). -/
def rk4MjtbAux (nw : ℕ) (a0 a1 a2 : ℚ) (A out : Mat) (op : ℕ) :
    Except String Mat :=
  if A.c ≠ out.c ∨ A.r ≠ nw ∨ out.r ≠ 3 * nw then
    Except.error "Invalid argument: A and out have wrong dimensions"
  else if op = 0 then
    Except.ok ⟨out.r, out.c, mjtbBlock nw a0 a1 a2 A⟩
  else if op = 1 then
    Except.ok ⟨out.r, out.c, fun i j => out.f i j + mjtbBlock nw a0 a1 a2 A i j⟩
  else if op = 2 then
    Except.ok ⟨out.r, out.c, fun i j => out.f i j - mjtbBlock nw a0 a1 a2 A i j⟩
  else
    Except.error "Invalid argument: allowed operators: setto, addto, rmfrom"

/-- `multiplyJacobianTransposeBy(data, A, out, op)` (poly-two-rk4.hxx
lines 129–161): writes `A` scaled by `c0, c1, c2` into the three row
thirds of `out` under the accumulation mode. -/
def rk4MultiplyJacobianTransposeBy (m : PolyTwoRK4) (d : CData)
    (A out : Mat) (op : ℕ) : Except String Mat :=
  rk4MjtbAux m.nw d.c0 d.c1 d.c2 A out op

/-- The ideal Jacobian block row `[a0·I | a1·I | a2·I]` of extent
`nw × 3·nw` that the spec ascribes to `calcDiff`. -/
def blockJac (nw : ℕ) (a0 a1 a2 : ℚ) : Mat :=
  ⟨nw, 3 * nw, fun i j =>
    if j < nw then (if j = i then a0 else 0)
    else if j < 2 * nw then (if j = nw + i then a1 else 0)
    else if j = 2 * nw + i then a2 else 0⟩

end Croc

namespace Croc

/-!
Linear-quadratic stage model, `lqr.hxx`.
-/

/-- `ActionModelLQRTpl`: configuration matrices and vectors, the
dimensions, and the `drift_free` flag.  The scratch member `H_`
assembled by `set_LQR` is local to that call and observable through no
accessor, so it is not part of the embedded state. -/
structure ActionModelLQR where
  nx : ℕ
  nu : ℕ
  A : Mat
  B : Mat
  Q : Mat
  R : Mat
  N : Mat
  f : Vec
  q : Vec
  r : Vec
  drift_free : Bool

/-- The derivative block written by `calcDiff(data, x, u)`. -/
structure LQRDiff where
  Fx : Mat
  Fu : Mat
  Lxx : Mat
  Luu : Mat
  Lxu : Mat
  Lx : Vec
  Lu : Vec

/-- The `ActionModelLQRTpl(nx, nu, drift_free)` constructor (lqr.hxx
lines 38–51): identity `A`, `B`, `Q`, `R`, zero `N`, `f` zero when
drift-free and all-ones otherwise, all-ones `q` and `r`. -/
def lqrFromDims (nx nu : ℕ) (drift_free : Bool) : ActionModelLQR :=
  { nx := nx
    nu := nu
    A := idMat nx nx
    B := idMat nx nu
    Q := idMat nx nx
    R := idMat nu nu
    N := zeroMat nx nu
    f := if drift_free then zeroVec nx else onesVec nx
    q := onesVec nx
    r := onesVec nu
    drift_free := drift_free }

/-- `calc(data, x, u)` (lqr.hxx lines 56–86): after the two size checks,
`xnext = A·x + B·u + f` and
`cost = ½ x·(Qx) + ½ u·(Ru) + x·(Nu) + q·x + r·u`, accumulated in the
order of the source. -/
def lqrCalc (m : ActionModelLQR) (x u : Vec) : Except String (Vec × ℚ) :=
  if x.n ≠ m.nx then
    Except.error "Invalid argument: x has wrong dimension"
  else if u.n ≠ m.nu then
    Except.error "Invalid argument: u has wrong dimension"
  else
    Except.ok
      (vAdd (vAdd (matVec m.A x) (matVec m.B u)) m.f,
        1 / 2 * dot x (matVec m.Q x) + 1 / 2 * dot u (matVec m.R u) +
          dot x (matVec m.N u) + dot m.q x + dot m.r u)

/-- The terminal `calc(data, x)` (lqr.hxx lines 88–104): after the size
check, `xnext = x` and `cost = ½ x·(Qx) + q·x`. -/
def lqrCalcTerminal (m : ActionModelLQR) (x : Vec) :
    Except String (Vec × ℚ) :=
  if x.n ≠ m.nx then
    Except.error "Invalid argument: x has wrong dimension"
  else
    Except.ok (x, 1 / 2 * dot x (matVec m.Q x) + dot m.q x)

/-- `calcDiff(data, x, u)` (lqr.hxx lines 106–132): after the two size
checks, `Fx = A`, `Fu = B`, `Lxx = Q`, `Luu = R`, `Lxu = N`,
`Lx = q + Q·x + N·u`, `Lu = r + Nᵀ·x + R·u`. -/
def lqrCalcDiff (m : ActionModelLQR) (x u : Vec) : Except String LQRDiff :=
  if x.n ≠ m.nx then
    Except.error "Invalid argument: x has wrong dimension"
  else if u.n ≠ m.nu then
    Except.error "Invalid argument: u has wrong dimension"
  else
    Except.ok
      { Fx := m.A
        Fu := m.B
        Lxx := m.Q
        Luu := m.R
        Lxu := m.N
        Lx := vAdd (vAdd m.q (matVec m.Q x)) (matVec m.N u)
        Lu := vAdd (vAdd m.r (matVec (mT m.N) x)) (matVec m.R u) }

/-- The block matrix `H = [[Q, N], [Nᵀ, R]]` assembled by `set_LQR`
(lqr.hxx lines 285–286), with `Q` of extent `nx × nx`, `R` of extent
`nu × nu` and `N` of extent `nx × nu` as already checked at that point. -/
def blockH (nx : ℕ) (Q R N : Mat) : Mat :=
  ⟨nx + R.r, nx + R.c, fun i j =>
    if i < nx then
      (if j < nx then Q.f i j else N.f i (j - nx))
    else
      (if j < nx then N.f j (i - nx) else R.f (i - nx) (j - nx))⟩

/-- Exact-arithmetic rendering of the Eigen `LLT` success test on a
matrix of extent `n` (lqr.hxx lines 287–288): the unblocked Cholesky
recursion of Eigen fails (`Eigen::NumericalIssue`) as soon as a pivot is
non-positive — a zero pivot is a failure — and otherwise continues on
the Schur complement of the pivot. -/
def cholOK : ℕ → (ℕ → ℕ → ℚ) → Bool
  | 0, _ => true
  | n + 1, g =>
    if g 0 0 ≤ 0 then false
    else
      cholOK n (fun i j =>
        g (i + 1) (j + 1) - g (i + 1) 0 * g 0 (j + 1) / g 0 0)

/-- `set_LQR(A, B, Q, R, N, f, q, r)` (lqr.hxx lines 236–301): the
sequence of shape checks of the source (`A.rows`, `B.rows`, `Q`, `R`,
`N`, `f`, `q`, `r` — the column counts of `A` and `B` are not checked),
then the symmetry and Cholesky test on `H = [[Q, N], [Nᵀ, R]]`, and only
then the assignment of every configuration field. -/
def set_LQR (m : ActionModelLQR) (A B Q R N : Mat) (f q r : Vec) :
    Except String ActionModelLQR :=
  if A.r ≠ m.nx then
    Except.error "Invalid argument: A should be a squared matrix with size nx"
  else if B.r ≠ m.nx then
    Except.error "Invalid argument: B has wrong dimension"
  else if Q.r ≠ m.nx ∨ Q.c ≠ m.nx then
    Except.error "Invalid argument: Q has wrong dimension"
  else if R.r ≠ m.nu ∨ R.c ≠ m.nu then
    Except.error "Invalid argument: R has wrong dimension"
  else if N.r ≠ m.nx ∨ N.c ≠ m.nu then
    Except.error "Invalid argument: N has wrong dimension"
  else if f.n ≠ m.nx then
    Except.error "Invalid argument: f has wrong dimension"
  else if q.n ≠ m.nx then
    Except.error "Invalid argument: q has wrong dimension"
  else if r.n ≠ m.nu then
    Except.error "Invalid argument: r has wrong dimension"
  else if ¬ mEq (blockH m.nx Q R N) (mT (blockH m.nx Q R N)) ∨
      cholOK (m.nx + m.nu) (blockH m.nx Q R N).f = false then
    Except.error "Invalid argument: Q N block matrix is not semi-positive definite"
  else
    Except.ok { m with A := A, B := B, f := f, Q := Q, R := R, N := N, q := q, r := r }

end Croc

namespace Croc

/-!
Concrete fixtures used by witnesses and counterexamples.
-/

/-- Small fixup lemmas for the finite sums. -/
theorem sumTo_zero (g : ℕ → ℚ) : sumTo 0 g = 0 := rfl

theorem sumTo_succ (n : ℕ) (g : ℕ → ℚ) : sumTo (n + 1) g = sumTo n g + g n := rfl

/-- An RK4 parametrization with one-dimensional instantaneous control. -/
def mOne : PolyTwoRK4 := ⟨1⟩

/-- Freshly allocated parametrization data for `mOne`: zero buffers. -/
def dZero : CData := ⟨zeroVec 1, zeroMat 1 3, 0, 0, 0, 0, zeroVec 3⟩

/-- The all-one parameter vector for `mOne`. -/
def uOnes : Vec := onesVec 3

/-- The data produced by `calc` on `dZero` at time `t = 0`. -/
def dAfterCalc : CData := exGetD (rk4Calc mOne dZero 0 uOnes) dZero

end Croc

namespace Croc

/-- C6: for every time `t`, the basis coefficients computed and stored by
`calc` are `c0fun t`, `c1fun t`, `c2fun t`; they always sum to `1`, at
`t = 0` they are `(1, 0, 0)`, and at `t = 1` they are `(0, 0, 1)`. -/
theorem rk4_basis_partition_of_unity (t : ℚ) (m : PolyTwoRK4) (d : CData)
    (u : Vec) (d2 : CData) (h : rk4Calc m d t u = Except.ok d2) :
    d2.c0 = c0fun t ∧ d2.c1 = c1fun t ∧ d2.c2 = c2fun t ∧
    c0fun t + c1fun t + c2fun t = 1 ∧
    (c0fun 0 = 1 ∧ c1fun 0 = 0 ∧ c2fun 0 = 0) ∧
    (c0fun 1 = 0 ∧ c1fun 1 = 0 ∧ c2fun 1 = 1) := by
  unfold rk4Calc at h
  split at h
  · exact absurd h (by simp)
  · cases h
    refine ⟨rfl, rfl, rfl, ?_, ?_, ?_⟩
    · unfold c0fun c1fun c2fun; ring
    · norm_num [c0fun, c1fun, c2fun]
    · norm_num [c0fun, c1fun, c2fun]

/-- Witness for C6 at `t = 0` on concrete data. -/
theorem rk4_basis_partition_of_unity_witness :
    rk4Calc mOne dZero 0 uOnes = Except.ok dAfterCalc ∧
    (dAfterCalc.c0 = c0fun 0 ∧ dAfterCalc.c1 = c1fun 0 ∧
      dAfterCalc.c2 = c2fun 0 ∧
      c0fun 0 + c1fun 0 + c2fun 0 = 1 ∧
      (c0fun 0 = 1 ∧ c1fun 0 = 0 ∧ c2fun 0 = 0) ∧
      (c0fun 1 = 0 ∧ c1fun 1 = 0 ∧ c2fun 1 = 1)) :=
  ⟨rfl, rk4_basis_partition_of_unity 0 mOne dZero uOnes dAfterCalc rfl⟩

/-- C5: for every time `t` and every `w` of extent `nw`, `params`
followed by `calc` on the produced parameter vector writes `w` back:
`params` sets the three nodes to `w` and the basis coefficients sum
to one. -/
theorem rk4_params_calc_roundtrip (m : PolyTwoRK4) (d : CData) (t : ℚ)
    (w : Vec) (hw : w.n = m.nw) :
    ∃ d1 d2, rk4Params m d t w = Except.ok d1 ∧
      rk4Calc m d1 t d1.u = Except.ok d2 ∧ vEq d2.w w := by
  have hsum : c0fun t + c1fun t + c2fun t = 1 := by
    unfold c0fun c1fun c2fun; ring
  have h1 : rk4Params m d t w = Except.ok { d with u := paramsVec m.nw w } := by
    unfold rk4Params
    rw [if_neg (by omega)]
  have h2 : rk4Calc m { d with u := paramsVec m.nw w } t (paramsVec m.nw w) =
      Except.ok
        { d with
          u := paramsVec m.nw w
          tmp_t2 := t * t
          c2 := c2fun t
          c1 := c1fun t
          c0 := c0fun t
          w := calcW m.nw t (paramsVec m.nw w) } := by
    unfold rk4Calc
    rw [if_neg (by simp [PolyTwoRK4.nu, paramsVec])]
  refine ⟨_, _, h1, h2, ?_⟩
  refine ⟨hw.symm, ?_⟩
  intro i hi
  have hi2 : i < m.nw := hi
  show c2fun t * (paramsVec m.nw w).f (2 * m.nw + i) +
      c1fun t * (paramsVec m.nw w).f (m.nw + i) +
      c0fun t * (paramsVec m.nw w).f i = w.f i
  simp only [paramsVec]
  rw [if_neg (by omega), if_neg (by omega), if_neg (by omega),
    if_pos (by omega : m.nw + i < 2 * m.nw), if_pos hi2]
  have e1 : 2 * m.nw + i - 2 * m.nw = i := by omega
  have e2 : m.nw + i - m.nw = i := by omega
  rw [e1, e2]
  linear_combination w.f i * hsum

/-- Witness for C5 with `nw = 1`, `t = 0`, `w = (5)`. -/
theorem rk4_params_calc_roundtrip_witness :
    (Vec.mk 1 (fun _ => 5)).n = mOne.nw ∧
    (∃ d1 d2, rk4Params mOne dZero 0 ⟨1, fun _ => 5⟩ = Except.ok d1 ∧
      rk4Calc mOne d1 0 d1.u = Except.ok d2 ∧ vEq d2.w ⟨1, fun _ => 5⟩) :=
  ⟨rfl, rk4_params_calc_roundtrip mOne dZero 0 ⟨1, fun _ => 5⟩ rfl⟩

/-- C10: `calcDiff`, `multiplyByJacobian` and `multiplyJacobianTransposeBy`
ignore their own arguments beyond the data (in particular `calcDiff`
checks no dimension of `u` and ignores its `t`): on data produced by
`calc` at time `t`, each of them computes with the coefficients
`c0fun t`, `c1fun t`, `c2fun t` stored by that `calc`, whatever
arguments it is itself passed. -/
theorem rk4_reads_stored_coefficients (m : PolyTwoRK4) (d : CData) (t : ℚ)
    (u : Vec) (d2 : CData) (h : rk4Calc m d t u = Except.ok d2) :
    (∀ t1 u1 t9 u9, rk4CalcDiff m d2 t1 u1 = rk4CalcDiff m d2 t9 u9) ∧
    (∀ t1 u1, rk4CalcDiff m d2 t1 u1 =
      rk4CalcDiffAux m.nw (c0fun t) (c1fun t) (c2fun t) d2) ∧
    (∀ A out op, rk4MultiplyByJacobian m d2 A out op =
      rk4MbjAux m.nw (c0fun t) (c1fun t) (c2fun t) A out op) ∧
    (∀ A out op, rk4MultiplyJacobianTransposeBy m d2 A out op =
      rk4MjtbAux m.nw (c0fun t) (c1fun t) (c2fun t) A out op) := by
  unfold rk4Calc at h
  split at h
  · exact absurd h (by simp)
  · cases h
    exact ⟨fun _ _ _ _ => rfl, fun _ _ => rfl, fun _ _ _ => rfl,
      fun _ _ _ => rfl⟩

/-- Witness for C10 on concrete data prepared by `calc` at `t = 0`. -/
theorem rk4_reads_stored_coefficients_witness :
    rk4Calc mOne dZero 0 uOnes = Except.ok dAfterCalc ∧
    ((∀ t1 u1 t9 u9,
        rk4CalcDiff mOne dAfterCalc t1 u1 = rk4CalcDiff mOne dAfterCalc t9 u9) ∧
      (∀ t1 u1, rk4CalcDiff mOne dAfterCalc t1 u1 =
        rk4CalcDiffAux mOne.nw (c0fun 0) (c1fun 0) (c2fun 0) dAfterCalc) ∧
      (∀ A out op, rk4MultiplyByJacobian mOne dAfterCalc A out op =
        rk4MbjAux mOne.nw (c0fun 0) (c1fun 0) (c2fun 0) A out op) ∧
      (∀ A out op, rk4MultiplyJacobianTransposeBy mOne dAfterCalc A out op =
        rk4MjtbAux mOne.nw (c0fun 0) (c1fun 0) (c2fun 0) A out op)) :=
  ⟨rfl, rk4_reads_stored_coefficients mOne dZero 0 uOnes dAfterCalc rfl⟩

/-- C4 is false as stated: `calcDiff` ignores its time argument and
reuses the coefficients stored by the last `calc`.  Concretely, with
`nw = 1`, after `calc` at `t = 0` a `calcDiff` at `t = 1` writes the
Jacobian of `t = 0` (entry `(0,0)` is `1`), not the block row
`[c0(1)·I, c1(1)·I, c2(1)·I]` (entry `(0,0)` would be `0`). -/
theorem rk4_calcDiff_ignores_t_cex :
    rk4Calc mOne dZero 0 uOnes = Except.ok dAfterCalc ∧
    (rk4CalcDiff mOne dAfterCalc 1 uOnes).dw_du.f 0 0 = 1 ∧
    (blockJac 1 (c0fun 1) (c1fun 1) (c2fun 1)).f 0 0 = 0 ∧
    ¬ mEq (rk4CalcDiff mOne dAfterCalc 1 uOnes).dw_du
        (blockJac 1 (c0fun 1) (c1fun 1) (c2fun 1)) := by
  have e1 : (rk4CalcDiff mOne dAfterCalc 1 uOnes).dw_du.f 0 0 = 1 := by
    show c0fun 0 = 1
    norm_num [c0fun, c1fun, c2fun]
  have e2 : (blockJac 1 (c0fun 1) (c1fun 1) (c2fun 1)).f 0 0 = 0 := by
    show c0fun 1 = 0
    norm_num [c0fun, c1fun, c2fun]
  refine ⟨rfl, e1, e2, ?_⟩
  intro hc
  have := hc.2.2 0 (by decide) 0 (by decide)
  rw [e1, e2] at this
  exact one_ne_zero this

/-- C4 (amended): the Jacobian written by `calcDiff` is the block row
`[c0·I, c1·I, c2·I]` of the time of the preceding `calc` on the same
data (whose `dw_du` buffer is at its allocated all-zero state), whatever
`t` and `u` the `calcDiff` call itself receives; it depends neither on
the `t` nor the `u` given to `calcDiff`. -/
theorem rk4_calcDiff_block_jacobian (m : PolyTwoRK4) (d : CData) (t : ℚ)
    (u : Vec) (d2 : CData) (t9 : ℚ) (u9 : Vec)
    (hdw : mEq d.dw_du (zeroMat m.nw (3 * m.nw)))
    (h : rk4Calc m d t u = Except.ok d2) :
    mEq (rk4CalcDiff m d2 t9 u9).dw_du
      (blockJac m.nw (c0fun t) (c1fun t) (c2fun t)) := by
  unfold rk4Calc at h
  split at h
  · exact absurd h (by simp)
  · cases h
    obtain ⟨hr, hc, hz⟩ := hdw
    simp only [zeroMat] at hr hc
    refine ⟨hr, hc, ?_⟩
    intro i hi j hj
    have hi2 : i < m.nw := by
      rw [← hr]
      exact hi
    have hj2 : j < 3 * m.nw := by
      rw [← hc]
      exact hj
    show (if j = i then c0fun t
        else if j = m.nw + i then c1fun t
        else if j = 2 * m.nw + i then c2fun t
        else d.dw_du.f i j) =
      (blockJac m.nw (c0fun t) (c1fun t) (c2fun t)).f i j
    simp only [blockJac]
    split_ifs <;>
      first
        | rfl
        | omega
        | exact hz i (by omega) j (by omega)

/-- Witness for C4 (amended) on concrete data: after `calc` at `t = 0`,
a `calcDiff` at `t = 1` still writes the `t = 0` block row. -/
theorem rk4_calcDiff_block_jacobian_witness :
    mEq dZero.dw_du (zeroMat mOne.nw (3 * mOne.nw)) ∧
    rk4Calc mOne dZero 0 uOnes = Except.ok dAfterCalc ∧
    mEq (rk4CalcDiff mOne dAfterCalc 1 uOnes).dw_du
      (blockJac mOne.nw (c0fun 0) (c1fun 0) (c2fun 0)) :=
  ⟨by decide, rfl,
    rk4_calcDiff_block_jacobian mOne dZero 0 uOnes dAfterCalc 1 uOnes
      (by decide) rfl⟩

/-- C8: in `multiplyByJacobian` and `multiplyJacobianTransposeBy`, every
shape violation produces the `InvalidArgument` failure (so no output is
produced), and so does an accumulation-mode value outside the enum
`{setto, addto, rmfrom}` (underlying values `0, 1, 2`) when it reaches
the `switch`. -/
theorem rk4_multiply_shape_and_op_errors (m : PolyTwoRK4) (d : CData)
    (A out : Mat) (op : ℕ) :
    ((A.c ≠ m.nw ∨ out.c ≠ m.nu ∨ A.r ≠ out.r) →
      exOk (rk4MultiplyByJacobian m d A out op) = false) ∧
    (3 ≤ op → exOk (rk4MultiplyByJacobian m d A out op) = false) ∧
    ((A.r ≠ m.nw ∨ out.r ≠ m.nu ∨ A.c ≠ out.c) →
      exOk (rk4MultiplyJacobianTransposeBy m d A out op) = false) ∧
    (3 ≤ op → exOk (rk4MultiplyJacobianTransposeBy m d A out op) = false) := by
  unfold rk4MultiplyByJacobian rk4MultiplyJacobianTransposeBy rk4MbjAux
    rk4MjtbAux PolyTwoRK4.nu
  refine ⟨?_, ?_, ?_, ?_⟩ <;> intro h <;>
    split_ifs <;> simp_all [exOk]

/-- Witness for C8: a `2 × 2` matrix `A` violates the `A.cols == nw`
requirement of `multiplyByJacobian` for `nw = 1`, and mode `7` is
rejected even on well-shaped arguments. -/
theorem rk4_multiply_shape_and_op_errors_witness :
    ((Mat.mk 2 2 fun _ _ => 1).c ≠ mOne.nw ∨
        (zeroMat 2 3).c ≠ mOne.nu ∨ (Mat.mk 2 2 fun _ _ => 1).r ≠ (zeroMat 2 3).r) ∧
    exOk (rk4MultiplyByJacobian mOne dZero ⟨2, 2, fun _ _ => 1⟩ (zeroMat 2 3) 0) =
      false ∧
    (3 ≤ 7) ∧
    exOk (rk4MultiplyByJacobian mOne dZero ⟨2, 1, fun _ _ => 1⟩ (zeroMat 2 3) 7) =
      false ∧
    ((zeroMat 2 3).r ≠ mOne.nw ∨ (zeroMat 1 3).r ≠ mOne.nu ∨
        (zeroMat 2 3).c ≠ (zeroMat 1 3).c) ∧
    exOk (rk4MultiplyJacobianTransposeBy mOne dZero (zeroMat 2 3) (zeroMat 1 3) 0) =
      false ∧
    exOk (rk4MultiplyJacobianTransposeBy mOne dZero (zeroMat 1 3) (zeroMat 3 3) 7) =
      false :=
  ⟨by decide,
    (rk4_multiply_shape_and_op_errors mOne dZero ⟨2, 2, fun _ _ => 1⟩
      (zeroMat 2 3) 0).1 (by decide),
    by decide,
    (rk4_multiply_shape_and_op_errors mOne dZero ⟨2, 1, fun _ _ => 1⟩
      (zeroMat 2 3) 7).2.1 (by decide),
    by decide,
    (rk4_multiply_shape_and_op_errors mOne dZero (zeroMat 2 3)
      (zeroMat 1 3) 0).2.2.1 (by decide),
    (rk4_multiply_shape_and_op_errors mOne dZero (zeroMat 1 3)
      (zeroMat 3 3) 7).2.2.2 (by decide)⟩

/-- C9: for well-shaped arguments and each accumulation mode,
`multiplyByJacobian` on `(A, out)` and `multiplyJacobianTransposeBy` on
`(Aᵀ, outᵀ)` succeed and produce mutually transposed results. -/
theorem rk4_multiply_transpose_consistent (m : PolyTwoRK4) (d : CData)
    (A out : Mat) (op : ℕ) (hA : A.c = m.nw) (ho : out.c = m.nu)
    (hr : A.r = out.r) (hop : op < 3) :
    ∃ M M9, rk4MultiplyByJacobian m d A out op = Except.ok M ∧
      rk4MultiplyJacobianTransposeBy m d (mT A) (mT out) op = Except.ok M9 ∧
      mEq M (mT M9) := by
  simp only [PolyTwoRK4.nu] at ho
  have hcond : ¬ (A.r ≠ out.r ∨ A.c ≠ m.nw ∨ out.c ≠ 3 * m.nw) := by
    push_neg
    exact ⟨hr, hA, ho⟩
  have hcond9 : ¬ ((mT A).c ≠ (mT out).c ∨ (mT A).r ≠ m.nw ∨
      (mT out).r ≠ 3 * m.nw) := by
    simp only [mT]
    push_neg
    exact ⟨hr, hA, ho⟩
  have hop3 : op = 0 ∨ op = 1 ∨ op = 2 := by omega
  unfold rk4MultiplyByJacobian rk4MultiplyJacobianTransposeBy rk4MbjAux
    rk4MjtbAux
  rw [if_neg hcond, if_neg hcond9]
  rcases hop3 with h0 | h1 | h2
  · subst h0
    exact ⟨_, _, rfl, rfl, rfl, rfl, fun i _ j _ => rfl⟩
  · subst h1
    exact ⟨_, _, rfl, rfl, rfl, rfl, fun i _ j _ => rfl⟩
  · subst h2
    exact ⟨_, _, rfl, rfl, rfl, rfl, fun i _ j _ => rfl⟩

/-- Witness for C9 with `nw = 1`, a concrete `2 × 1` matrix `A` and
mode `addto`. -/
theorem rk4_multiply_transpose_consistent_witness :
    (Mat.mk 2 1 fun i j => (1 + i + j : ℚ)).c = mOne.nw ∧
    (Mat.mk 2 3 fun i j => (i * j : ℚ)).c = mOne.nu ∧
    (Mat.mk 2 1 fun i j => (1 + i + j : ℚ)).r = (Mat.mk 2 3 fun i j => (i * j : ℚ)).r ∧
    1 < 3 ∧
    (∃ M M9,
      rk4MultiplyByJacobian mOne dAfterCalc ⟨2, 1, fun i j => (1 + i + j : ℚ)⟩
          ⟨2, 3, fun i j => (i * j : ℚ)⟩ 1 = Except.ok M ∧
      rk4MultiplyJacobianTransposeBy mOne dAfterCalc
          (mT ⟨2, 1, fun i j => (1 + i + j : ℚ)⟩)
          (mT ⟨2, 3, fun i j => (i * j : ℚ)⟩) 1 = Except.ok M9 ∧
      mEq M (mT M9)) :=
  ⟨by decide, by decide, by decide, by decide,
    rk4_multiply_transpose_consistent mOne dAfterCalc
      ⟨2, 1, fun i j => (1 + i + j : ℚ)⟩ ⟨2, 3, fun i j => (i * j : ℚ)⟩ 1
      (by decide) (by decide) (by decide) (by decide)⟩

end Croc

namespace Croc

/-!
Fixtures for the LQR claims.
-/

/-- The end-to-end example model of the spec: `nx = 2`, `nu = 1`, `A = I`,
`B = [[0], [1]]`, `Q = I`, `R = [[1]]`, `N = 0`, `f = q = r = 0`. -/
def exM : ActionModelLQR :=
  { nx := 2
    nu := 1
    A := idMat 2 2
    B := ⟨2, 1, fun i _ => if i = 1 then 1 else 0⟩
    Q := idMat 2 2
    R := idMat 1 1
    N := zeroMat 2 1
    f := zeroVec 2
    q := zeroVec 2
    r := zeroVec 1
    drift_free := true }

/-- The example state of the spec `x = [1, 0]`. -/
def exX : Vec := ⟨2, fun i => if i = 0 then 1 else 0⟩

/-- The example control of the spec `u = [1]`. -/
def exU : Vec := onesVec 1

/-- A default-constructed model with `nx = 1`, `nu = 0`, drift-free. -/
def m0 : ActionModelLQR := lqrFromDims 1 0 true

/-- A `1 × 2` matrix: the wrong shape for the `A` of `m0` (it should be
`1 × 1`), with the correct row count. -/
def badA : Mat := ⟨1, 2, fun _ _ => 1⟩

/-- The model produced by feeding `badA` to the bulk setter of `m0`. -/
def m0Bad : ActionModelLQR :=
  exGetD
    (set_LQR m0 badA (idMat 1 0) (idMat 1 1) (idMat 0 0) (zeroMat 1 0)
      (zeroVec 1) (zeroVec 1) (zeroVec 0)) m0

/-- The model produced by a well-shaped bulk-setter call on `m0`. -/
def m0Good : ActionModelLQR :=
  exGetD
    (set_LQR m0 (idMat 1 1) (idMat 1 0) (idMat 1 1) (idMat 0 0)
      (zeroMat 1 0) (zeroVec 1) (zeroVec 1) (zeroVec 0)) m0

end Croc

namespace Croc

/-- C1: for every model and every `x`, `u` of the right extents, `calc`
produces `xnext = A·x + B·u + f` and
`cost = ½ xᵀQx + ½ uᵀRu + xᵀNu + qᵀx + rᵀu`; on the end-to-end
example it yields `xnext = [1, 1]` and `cost = 1`. -/
theorem lqr_calc_formula (m : ActionModelLQR) (x u : Vec)
    (hx : x.n = m.nx) (hu : u.n = m.nu) :
    lqrCalc m x u =
      Except.ok
        (vAdd (vAdd (matVec m.A x) (matVec m.B u)) m.f,
          1 / 2 * dot x (matVec m.Q x) + 1 / 2 * dot u (matVec m.R u) +
            dot x (matVec m.N u) + dot m.q x + dot m.r u) ∧
    vEq (exGetD (lqrCalc exM exX exU) (exX, 0)).1 ⟨2, fun _ => 1⟩ ∧
    (exGetD (lqrCalc exM exX exU) (exX, 0)).2 = 1 := by
  refine ⟨?_, ⟨rfl, ?_⟩, ?_⟩
  · unfold lqrCalc
    rw [if_neg (by omega), if_neg (by omega)]
  · intro i hi
    have hi2 : i < 2 := hi
    show (vAdd (vAdd (matVec exM.A exX) (matVec exM.B exU)) exM.f).f i = 1
    match i, hi2 with
    | 0, _ =>
      norm_num [vAdd, matVec, dot, sumTo_succ, sumTo_zero, exM, exX, exU,
        idMat, zeroVec, zeroMat, onesVec]
    | 1, _ =>
      norm_num [vAdd, matVec, dot, sumTo_succ, sumTo_zero, exM, exX, exU,
        idMat, zeroVec, zeroMat, onesVec]
  · show 1 / 2 * dot exX (matVec exM.Q exX) +
        1 / 2 * dot exU (matVec exM.R exU) + dot exX (matVec exM.N exU) +
        dot exM.q exX + dot exM.r exU = 1
    norm_num [vAdd, matVec, dot, sumTo_succ, sumTo_zero, exM, exX, exU,
      idMat, zeroVec, zeroMat, onesVec]

/-- Witness for C1 on the example inputs of the spec. -/
theorem lqr_calc_formula_witness :
    exX.n = exM.nx ∧ exU.n = exM.nu ∧
    (lqrCalc exM exX exU =
      Except.ok
        (vAdd (vAdd (matVec exM.A exX) (matVec exM.B exU)) exM.f,
          1 / 2 * dot exX (matVec exM.Q exX) +
            1 / 2 * dot exU (matVec exM.R exU) +
            dot exX (matVec exM.N exU) + dot exM.q exX + dot exM.r exU) ∧
      vEq (exGetD (lqrCalc exM exX exU) (exX, 0)).1 ⟨2, fun _ => 1⟩ ∧
      (exGetD (lqrCalc exM exX exU) (exX, 0)).2 = 1) :=
  ⟨by decide, by decide, lqr_calc_formula exM exX exU (by decide) (by decide)⟩

/-- C2: for every model and every `x`, `u` of the right extents,
`calcDiff` writes exactly `Fx = A`, `Fu = B`, `Lxx = Q`, `Luu = R`,
`Lxu = N`, `Lx = q + Q·x + N·u` and `Lu = r + Nᵀ·x + R·u`. -/
theorem lqr_calcDiff_exact (m : ActionModelLQR) (x u : Vec)
    (hx : x.n = m.nx) (hu : u.n = m.nu) :
    lqrCalcDiff m x u =
      Except.ok
        { Fx := m.A
          Fu := m.B
          Lxx := m.Q
          Luu := m.R
          Lxu := m.N
          Lx := vAdd (vAdd m.q (matVec m.Q x)) (matVec m.N u)
          Lu := vAdd (vAdd m.r (matVec (mT m.N) x)) (matVec m.R u) } := by
  unfold lqrCalcDiff
  rw [if_neg (by omega), if_neg (by omega)]

/-- Witness for C2 on the example inputs of the spec. -/
theorem lqr_calcDiff_exact_witness :
    exX.n = exM.nx ∧ exU.n = exM.nu ∧
    lqrCalcDiff exM exX exU =
      Except.ok
        { Fx := exM.A
          Fu := exM.B
          Lxx := exM.Q
          Luu := exM.R
          Lxu := exM.N
          Lx := vAdd (vAdd exM.q (matVec exM.Q exX)) (matVec exM.N exU)
          Lu := vAdd (vAdd exM.r (matVec (mT exM.N) exX)) (matVec exM.R exU) } :=
  ⟨by decide, by decide, lqr_calcDiff_exact exM exX exU (by decide) (by decide)⟩

/-- C7: the terminal `calc(data, x)` writes `xnext = x` and
`cost = ½ xᵀQx + qᵀx` when `|x| = nx`, and fails with the
`InvalidArgument` error when `|x| ≠ nx`. -/
theorem lqr_calcTerminal_spec (m : ActionModelLQR) (x : Vec) :
    (x.n = m.nx →
      lqrCalcTerminal m x =
        Except.ok (x, 1 / 2 * dot x (matVec m.Q x) + dot m.q x)) ∧
    (x.n ≠ m.nx → exOk (lqrCalcTerminal m x) = false) := by
  constructor <;> intro h <;> unfold lqrCalcTerminal
  · rw [if_neg (by omega)]
  · rw [if_pos h]
    rfl

/-- Witness for C7: the good-size branch at the example state and the
bad-size branch at a length-3 state. -/
theorem lqr_calcTerminal_spec_witness :
    exX.n = exM.nx ∧
    lqrCalcTerminal exM exX =
      Except.ok (exX, 1 / 2 * dot exX (matVec exM.Q exX) + dot exM.q exX) ∧
    (onesVec 3).n ≠ exM.nx ∧
    exOk (lqrCalcTerminal exM (onesVec 3)) = false :=
  ⟨by decide, (lqr_calcTerminal_spec exM exX).1 (by decide), by decide,
    (lqr_calcTerminal_spec exM (onesVec 3)).2 (by decide)⟩

/-- Helper: a conditional whose then-branch is an error can only return
a success value through its else-branch. -/
theorem ite_ok_elim {α : Type} (c : Prop) [Decidable c] (e : String)
    (x : Except String α) (a : α)
    (h : (if c then Except.error e else x) = Except.ok a) :
    x = Except.ok a := by
  split at h
  · exact Except.noConfusion h
  · exact h

/-- C3 is false as stated: the bulk setter never validates the column
counts of `A` (or `B`).  Concretely, on the `nx = 1`, `nu = 0` model the
call with the `1 × 2` matrix `badA` (wrong shape: `A` must be
`1 × 1`) raises nothing — it succeeds and replaces the field `A` of the model by
`badA`, mutating an observable field. -/
theorem lqr_set_LQR_missing_shape_check_cex :
    badA.c ≠ m0.nx ∧
    set_LQR m0 badA (idMat 1 0) (idMat 1 1) (idMat 0 0) (zeroMat 1 0)
        (zeroVec 1) (zeroVec 1) (zeroVec 0) = Except.ok m0Bad ∧
    mEq m0Bad.A badA ∧ ¬ mEq m0.A badA :=
  ⟨by decide, rfl, by decide, by decide⟩

/-- C3 (amended): the bulk setter raises `InvalidArgument` exactly when
one of the checks it actually performs fails — the row counts of `A` and
`B`, the full extents of `Q`, `R`, `N`, the lengths of `f`, `q`, `r`,
and the symmetry/Cholesky test on `[[Q, N], [Nᵀ, R]]`; the column
counts of `A` and `B` are never validated.  On success every
configuration field is replaced by the corresponding argument (and the
dimensions and `drift_free` flag are untouched); on failure no new model
is produced. -/
theorem lqr_set_LQR_checked (m : ActionModelLQR) (A B Q R N : Mat)
    (f q r : Vec) :
    (exOk (set_LQR m A B Q R N f q r) = true ↔
      (A.r = m.nx ∧ B.r = m.nx ∧ (Q.r = m.nx ∧ Q.c = m.nx) ∧
        (R.r = m.nu ∧ R.c = m.nu) ∧ (N.r = m.nx ∧ N.c = m.nu) ∧
        f.n = m.nx ∧ q.n = m.nx ∧ r.n = m.nu ∧
        mEq (blockH m.nx Q R N) (mT (blockH m.nx Q R N)) ∧
        cholOK (m.nx + m.nu) (blockH m.nx Q R N).f = true)) ∧
    (∀ m2, set_LQR m A B Q R N f q r = Except.ok m2 →
      m2.nx = m.nx ∧ m2.nu = m.nu ∧ m2.drift_free = m.drift_free ∧
      m2.A = A ∧ m2.B = B ∧ m2.Q = Q ∧ m2.R = R ∧ m2.N = N ∧
      m2.f = f ∧ m2.q = q ∧ m2.r = r) := by
  constructor
  · unfold set_LQR
    split_ifs with h1 h2 h3 h4 h5 h6 h7 h8 h9 <;>
      simp_all [exOk, not_or, Bool.not_eq_false] <;> tauto
  · intro m2 h
    unfold set_LQR at h
    replace h := ite_ok_elim _ _ _ _ h
    replace h := ite_ok_elim _ _ _ _ h
    replace h := ite_ok_elim _ _ _ _ h
    replace h := ite_ok_elim _ _ _ _ h
    replace h := ite_ok_elim _ _ _ _ h
    replace h := ite_ok_elim _ _ _ _ h
    replace h := ite_ok_elim _ _ _ _ h
    replace h := ite_ok_elim _ _ _ _ h
    replace h := ite_ok_elim _ _ _ _ h
    cases h
    exact ⟨rfl, rfl, rfl, rfl, rfl, rfl, rfl, rfl, rfl, rfl, rfl⟩

/-- Witness for C3 (amended): a well-shaped, PSD call on `m0` succeeds
and replaces every field. -/
theorem lqr_set_LQR_checked_witness :
    set_LQR m0 (idMat 1 1) (idMat 1 0) (idMat 1 1) (idMat 0 0)
        (zeroMat 1 0) (zeroVec 1) (zeroVec 1) (zeroVec 0) =
      Except.ok m0Good ∧
    (m0Good.nx = m0.nx ∧ m0Good.nu = m0.nu ∧
      m0Good.drift_free = m0.drift_free ∧
      m0Good.A = idMat 1 1 ∧ m0Good.B = idMat 1 0 ∧ m0Good.Q = idMat 1 1 ∧
      m0Good.R = idMat 0 0 ∧ m0Good.N = zeroMat 1 0 ∧
      m0Good.f = zeroVec 1 ∧ m0Good.q = zeroVec 1 ∧
      m0Good.r = zeroVec 0) :=
  ⟨rfl,
    (lqr_set_LQR_checked m0 (idMat 1 1) (idMat 1 0) (idMat 1 1) (idMat 0 0)
      (zeroMat 1 0) (zeroVec 1) (zeroVec 1) (zeroVec 0)).2 m0Good rfl⟩

end Croc
